import Mathlib

/-!
Shallow embedding of the OCR/summarization orchestration pipeline of
`src/receipt_ocr.py` and of the retrying analysis call of `src/analyze.py`.

The filesystem, the image-decoding library and the network are modelled as
environment records of pure functions: `FileSystem` stands for
`os.path.isfile` / `mimetypes.guess_type`, `OcrEnv.preprocessOk` /
`OcrEnv.encodeOk` for the outcome of `preprocess_receipt_image` /
`cv2.imencode`, and `NetResult` for the outcome of one `session.post` call
(timeout, request exception, any other exception such as a response-parsing
error, or an HTTP response with a status code and a parsed JSON body).
-/

/-- Environment seen by `validate_image_path`: `os.path.isfile` and the MIME
type component of `mimetypes.guess_type`. -/
structure FileSystem where
  isFile : String → Bool
  guessType : String → Option String

/-- Embeds `validate_image_path` (src/receipt_ocr.py lines 28-37): the path
must reference an existing regular file and its guessed MIME type must be in
the literal three-element list of line 34 (image/jpeg, image/png, image/jpg); a missing guess
is not in that list, hence invalid. -/
def validate_image_path (fs : FileSystem) (image_path : String) : Bool :=
  if ¬ fs.isFile image_path then
    false
  else
    match fs.guessType image_path with
    | some mime_type => ["image/jpeg", "image/png", "image/jpg"].contains mime_type
    | none => false

/-- One recognized field of the OCR vendor response (`fields` entry with its
`inferText`). -/
structure OcrField where
  inferText : String
deriving DecidableEq

/-- One image entry of the OCR vendor response body. -/
structure OcrImage where
  fields : List OcrField
deriving DecidableEq

/-- Parsed JSON body of an OCR vendor response: `{images: [{fields: [...]}]}`. -/
structure OcrBody where
  images : List OcrImage
deriving DecidableEq

/-- Outcome of one `session.post` call: `requests.exceptions.Timeout`,
`requests.exceptions.RequestException`, any other exception (e.g. raised
while parsing the response body), or an HTTP response with a status code and
a parsed body. -/
inductive NetResult (α : Type) where
  | timeout
  | requestError
  | exception
  | ok (status : Nat) (body : α)
deriving DecidableEq

/-- Environment of one run of `perform_ocr`: the filesystem, whether
`preprocess_receipt_image` returns a non-`None` raster for a path, whether
`cv2.imencode` succeeds for it, and the outcome of the OCR network request
for it. -/
structure OcrEnv where
  fs : FileSystem
  preprocessOk : String → Bool
  encodeOk : String → Bool
  net : String → NetResult OcrBody

/-- The text extraction of the 200 branch of `perform_ocr`
(src/receipt_ocr.py lines 130-134): the space join of the `inferText` of
every field, across all image entries, in response order. -/
def ocr_text_results (body : OcrBody) : String :=
  String.intercalate " "
    (body.images.flatMap (fun image => image.fields.map (fun field => field.inferText)))

/-- Embeds `perform_ocr` (src/receipt_ocr.py lines 85-146). Every failure
path — validation, preprocessing, encoding, timeout, request exception,
other exception, non-200 status — returns `(image_type, "")`; the 200 path
returns the extracted text. The Python function catches every exception, so
it is total and is embedded as a total function. -/
def perform_ocr (env : OcrEnv) (image_info : String × String) : String × String :=
  let (image_type, image_path) := image_info
  if ¬ validate_image_path env.fs image_path then
    (image_type, "")
  else if ¬ env.preprocessOk image_path then
    (image_type, "")
  else if ¬ env.encodeOk image_path then
    (image_type, "")
  else
    match env.net image_path with
    | .ok status body =>
        if status = 200 then (image_type, ocr_text_results body) else (image_type, "")
    | .timeout => (image_type, "")
    | .requestError => (image_type, "")
    | .exception => (image_type, "")

/-- `perform_ocr` reaches `session.post` for a path exactly when validation,
preprocessing and encoding all succeed (the post at line 126 comes after the
early returns of lines 90-104). -/
def ocr_net_attempted (env : OcrEnv) (image_path : String) : Bool :=
  validate_image_path env.fs image_path && env.preprocessOk image_path
    && env.encodeOk image_path

/-- Slot label of the path at 0-based position `i` of the argument list:
the string Receipt followed by i+1 (src/receipt_ocr.py line 212). -/
def slot_label (i : Nat) : String :=
  "Receipt" ++ toString (i + 1)

/-- The validation loop of `main` (src/receipt_ocr.py lines 210-216) from
position `i` on: each path is given the label of its position in the
original argument list, then appended to the valid list only if it passes
validation. -/
def valid_from (fs : FileSystem) : Nat → List String → List (String × String)
  | _, [] => []
  | i, p :: ps =>
      if validate_image_path fs p then
        (slot_label i, p) :: valid_from fs (i + 1) ps
      else
        valid_from fs (i + 1) ps

/-- `valid_image_paths` as built by `main` over the whole argument list. -/
def valid_image_paths (fs : FileSystem) (paths : List String) : List (String × String) :=
  valid_from fs 0 paths

/-- Python `dict` assignment `d[k] = v`: update in place if the key exists,
otherwise append; iteration order of the dict is first-insertion order. -/
def dictInsert (d : List (String × String)) (k v : String) : List (String × String) :=
  if d.any (fun kv => kv.1 = k) then
    d.map (fun kv => if kv.1 = k then (k, v) else kv)
  else
    d ++ [(k, v)]

/-- The fan-in loop of `main` (src/receipt_ocr.py lines 226-234): futures are
consumed in completion order (`as_completed`), and each result is written
into the `extracted_texts` dict. `order` is the completion order of the
submitted `(slot label, path)` pairs. -/
def collect_results (env : OcrEnv) (order : List (String × String)) :
    List (String × String) :=
  order.foldl
    (fun d image_info =>
      let r := perform_ocr env image_info
      dictInsert d r.1 r.2)
    []

/-- `combined_text = "\n".join(extracted_texts.values())`
(src/receipt_ocr.py line 237): the dict values in insertion order, which is
the completion order of the OCR tasks. -/
def combined_text (env : OcrEnv) (order : List (String × String)) : String :=
  String.intercalate "\n" ((collect_results env order).map (fun kv => kv.2))

/-- `message` object of one `choices` entry of the LLM vendor response. -/
structure ChatMessage where
  content : String
deriving DecidableEq

/-- One `choices` entry of the LLM vendor response body. -/
structure SumChoice where
  message : ChatMessage
deriving DecidableEq

/-- Parsed JSON body of an LLM vendor response:
`{choices: [{message: {content}}]}`. -/
structure SumBody where
  choices : List SumChoice
deriving DecidableEq

/-- Python `str.strip()`: drop leading and trailing whitespace. Embedded as
an explicit computation on the character list (the builtin `String.trim`
is defined by well-founded recursion on byte positions and is therefore
opaque to evaluation by `decide`). -/
def pyStrip (s : String) : String :=
  String.mk (((s.data.dropWhile Char.isWhitespace).reverse.dropWhile Char.isWhitespace).reverse)

/-- Embeds `perform_summarization` (src/receipt_ocr.py lines 148-182): a
single `session.post`, no retry loop. On a 200 response it returns
the stripped `content` of the first `choices` entry; an empty `choices`
list raises `IndexError`, caught by the catch-all handler and turned into
`None`; every other outcome (timeout, request exception, other exception,
non-200 status) returns `None`. -/
def perform_summarization (outcome : NetResult SumBody) : Option String :=
  match outcome with
  | .ok status body =>
      if status = 200 then
        match body.choices with
        | choice :: _ => some (pyStrip choice.message.content)
        | [] => none
      else
        none
  | .timeout => none
  | .requestError => none
  | .exception => none

/-- The prompt f-string of `main` (src/receipt_ocr.py lines 243-253): fixed
instruction text with `combined_text` interpolated near the end. -/
def receipt_prompt (combined : String) : String :=
  "\n    다음은 상품 목록과 관련된 데이터로, \x27[상품명] [단가] [수량] [금액]\x27으로 구성되어 있습니다.\n    각 항목별로 번호를 매기고, **상품명과 총액(단가 * 수량)**만 아래와 같은 형식으로 정리해주세요:\n\n    0: [상품명] $[총액]\n    1: [상품명] $[총액]\n    ...\n\n    입력 데이터:\n    "
    ++ combined ++ "\n    "

/-- Terminal outcome of one run of `main`: each non-`success` constructor is
a logged error followed by `sys.exit(1)`; `success` prints the summary. -/
inductive RunOutcome where
  | noValidImages
  | emptyOcr
  | summarizationFailed
  | success (summary : String)
deriving DecidableEq

/-- Process exit status of a `main` outcome (`sys.exit(1)` on every error
path, implicit 0 on success). -/
def exit_code : RunOutcome → Nat
  | .success _ => 0
  | .noValidImages => 1
  | .emptyOcr => 1
  | .summarizationFailed => 1

/-- Paths of the dispatched pairs for which the OCR network request is
actually issued during the fan-out. -/
def run_ocr_calls (env : OcrEnv) (order : List (String × String)) : List String :=
  (order.filter (fun info => ocr_net_attempted env info.2)).map (fun info => info.2)

/-- Observable trace of one run of `main`: its outcome, the
`extracted_texts` mapping, the paths for which an OCR network call was
made, and whether the summarization call was made. -/
structure RunTrace where
  outcome : RunOutcome
  results : List (String × String)
  ocrCalls : List String
  summarizationCalled : Bool
deriving DecidableEq

/-- Embeds `main` (src/receipt_ocr.py lines 184-263) after the environment
variable checks: validate and label the paths, abort if none is valid,
dispatch OCR and collect the results in completion order `order`, join the
dict values into `combined_text`, abort if it is blank, call summarization
once, and succeed only on a truthy (non-`None`, non-empty) summary. -/
def main_run (env : OcrEnv) (sumNet : String → NetResult SumBody)
    (paths : List String) (order : List (String × String)) : RunTrace :=
  let valid := valid_image_paths env.fs paths
  if valid.isEmpty then
    ⟨.noValidImages, [], [], false⟩
  else
    let results := collect_results env order
    let calls := run_ocr_calls env order
    let combined := String.intercalate "\n" (results.map (fun kv => kv.2))
    if pyStrip combined = "" then
      ⟨.emptyOcr, results, calls, false⟩
    else
      match perform_summarization (sumNet (receipt_prompt combined)) with
      | some summary_result =>
          if summary_result = "" then
            ⟨.summarizationFailed, results, calls, true⟩
          else
            ⟨.success summary_result, results, calls, true⟩
      | none => ⟨.summarizationFailed, results, calls, true⟩

/-- Outcome of one attempt of `analyze_expenses` (src/analyze.py lines
179-210): `ok` carries the analysis value produced from the attempt
response (JSON block found and parsed); `fail` covers a raised exception, a
missing JSON block, or a JSON parse error. -/
inductive AttemptOutcome where
  | fail
  | ok (analysis : String)
deriving DecidableEq

/-- Result of the retry loop of `analyze_expenses`: the returned analysis
(`none` embeds the empty-dict failure return of line 218) and the total
`time.sleep` delay accumulated between attempts. -/
structure RetryResult where
  result : Option String
  totalDelay : Nat
deriving DecidableEq

/-- The retry loop of `analyze_expenses` (src/analyze.py lines 177-218):
`backoff = 1`; for each attempt, return the analysis on success; on failure
sleep `backoff` and double it, but only when this was not the last attempt
(`attempt < retries - 1`). `remaining` counts the attempts still allowed,
including the current one. -/
def analyze_go (attempts : Nat → AttemptOutcome) :
    Nat → Nat → Nat → Nat → RetryResult
  | 0, _, _, delay => ⟨none, delay⟩
  | remaining + 1, attempt, backoff, delay =>
      match attempts attempt with
      | .ok analysis => ⟨some analysis, delay⟩
      | .fail =>
          match remaining with
          | 0 => ⟨none, delay⟩
          | _ + 1 => analyze_go attempts remaining (attempt + 1) (backoff * 2) (delay + backoff)

/-- Embeds `analyze_expenses(prompt, total_spending, retries=3)`
(src/analyze.py lines 173-218), abstracting the network call and
parsing into `attempts`. -/
def analyze_expenses (attempts : Nat → AttemptOutcome) (retries : Nat) : RetryResult :=
  analyze_go attempts retries 0 1 0

example : slot_label 0 = "Receipt1" := by decide
example : slot_label 2 = "Receipt3" := by decide
example :
    analyze_expenses (fun n => if n < 2 then .fail else .ok "T") 3 = ⟨some "T", 3⟩ := by
  decide

/-! ### Helper lemmas -/

/-- `perform_ocr` always returns the slot label it was given as the first
component: every branch of the source function returns `image_type`. -/
theorem perform_ocr_fst (env : OcrEnv) (info : String × String) :
    (perform_ocr env info).1 = info.1 := by
  obtain ⟨t, p⟩ := info
  unfold perform_ocr
  dsimp only
  split_ifs <;> try rfl
  rcases env.net p with _ | _ | _ | ⟨status, body⟩ <;>
    first
    | rfl
    | (dsimp only; split_ifs <;> rfl)

/-- A dict assignment with a fresh key appends the pair. -/
theorem dictInsert_of_fresh (d : List (String × String)) (k v : String)
    (h : ∀ kv ∈ d, kv.1 ≠ k) : dictInsert d k v = d ++ [(k, v)] := by
  have hany : d.any (fun kv => kv.1 = k) = false := by
    simp only [List.any_eq_false, decide_eq_true_eq]
    exact h
  simp [dictInsert, hany]

/-- The fan-in fold over distinct slot labels appends each result in
completion order. -/
theorem collect_foldl_eq (env : OcrEnv) (order : List (String × String)) :
    ∀ acc : List (String × String),
      (∀ kv ∈ acc, ∀ info ∈ order, info.1 ≠ kv.1) →
      (order.map (fun info => info.1)).Nodup →
      List.foldl
        (fun d image_info =>
          let r := perform_ocr env image_info
          dictInsert d r.1 r.2)
        acc order
        = acc ++ order.map (perform_ocr env) := by
  induction order with
  | nil => intro acc _ _; simp
  | cons info rest ih =>
      intro acc hdisj hnodup
      have hfst : (perform_ocr env info).1 = info.1 := perform_ocr_fst env info
      have hstep :
          dictInsert acc (perform_ocr env info).1 (perform_ocr env info).2
            = acc ++ [perform_ocr env info] := by
        rw [dictInsert_of_fresh]
        intro kv hkv
        rw [hfst]
        exact (hdisj kv hkv info (List.mem_cons_self info rest)).symm
      rw [List.foldl_cons]
      show List.foldl _ (dictInsert acc (perform_ocr env info).1 (perform_ocr env info).2)
        rest = _
      rw [hstep]
      rw [List.map_cons, List.nodup_cons] at hnodup
      rw [ih (acc ++ [perform_ocr env info]) ?_ hnodup.2]
      · simp
      · intro kv hkv info' hinfo'
        rcases List.mem_append.1 hkv with hacc | hsingle
        · exact hdisj kv hacc info' (List.mem_cons_of_mem info hinfo')
        · rw [List.mem_singleton] at hsingle
          subst hsingle
          rw [hfst]
          intro hcontra
          exact hnodup.1 (hcontra ▸ List.mem_map_of_mem (fun i => i.1) hinfo')

/-- With distinct slot labels, the collected mapping is exactly the list of
per-task results in completion order. -/
theorem collect_results_eq_map (env : OcrEnv) (order : List (String × String))
    (h : (order.map (fun info => info.1)).Nodup) :
    collect_results env order = order.map (perform_ocr env) := by
  have := collect_foldl_eq env order [] (by simp) h
  simpa [collect_results] using this

/-- Every pair produced by the validation loop comes from a position of the
remaining path list: its label is the slot label of that position, its path
is the path at that position, and that path passed validation. -/
theorem valid_from_mem (fs : FileSystem) :
    ∀ (ps : List String) (i : Nat) (l p : String),
      (l, p) ∈ valid_from fs i ps →
      ∃ j, ∃ h : j < ps.length, l = slot_label (i + j) ∧ p = ps.get ⟨j, h⟩ ∧
        validate_image_path fs p = true := by
  intro ps
  induction ps with
  | nil => intro i l p h; simp [valid_from] at h
  | cons q rest ih =>
      intro i l p h
      rw [valid_from] at h
      by_cases hv : validate_image_path fs q
      · rw [if_pos hv] at h
        rcases List.mem_cons.1 h with hhead | htail
        · refine ⟨0, by simp, ?_, ?_, ?_⟩
          · simpa using congrArg Prod.fst hhead
          · simpa using congrArg Prod.snd hhead
          · have : p = q := by simpa using congrArg Prod.snd hhead
            rw [this]; exact hv
        · obtain ⟨j, hj, hl, hp, hval⟩ := ih (i + 1) l p htail
          refine ⟨j + 1, by simpa using Nat.succ_lt_succ hj, ?_, ?_, hval⟩
          · rw [hl]; congr 1; omega
          · simpa using hp
      · rw [if_neg hv] at h
        obtain ⟨j, hj, hl, hp, hval⟩ := ih (i + 1) l p h
        refine ⟨j + 1, by simpa using Nat.succ_lt_succ hj, ?_, ?_, hval⟩
        · rw [hl]; congr 1; omega
        · simpa using hp

/-- Conversely, every position whose path passes validation contributes the
pair with its positional slot label. -/
theorem valid_from_mem_of_valid (fs : FileSystem) :
    ∀ (ps : List String) (i j : Nat) (h : j < ps.length),
      validate_image_path fs (ps.get ⟨j, h⟩) = true →
      (slot_label (i + j), ps.get ⟨j, h⟩) ∈ valid_from fs i ps := by
  intro ps
  induction ps with
  | nil => intro i j h; simp at h
  | cons q rest ih =>
      intro i j h hval
      rw [valid_from]
      cases j with
      | zero =>
          simp only [List.get] at hval ⊢
          rw [if_pos hval]
          exact List.mem_cons_self _ _
      | succ j' =>
          have hj' : j' < rest.length := by simpa using Nat.lt_of_succ_lt_succ h
          have hmem := ih (i + 1) j' hj' (by simpa using hval)
          have harith : i + 1 + j' = i + (j' + 1) := by omega
          rw [harith] at hmem
          by_cases hv : validate_image_path fs q
          · rw [if_pos hv]
            exact List.mem_cons_of_mem _ (by simpa using hmem)
          · rw [if_neg hv]
            simpa using hmem

/-- Distinct positions below 3 get distinct slot labels (`Receipt1`,
`Receipt2`, `Receipt3`); the entry point accepts at most 3 paths. -/
theorem slot_label_ne_of_lt3 :
    ∀ i, i < 3 → ∀ j, j < 3 → i ≠ j → slot_label i ≠ slot_label j := by decide

/-- The slot labels built by the validation loop are distinct when the batch
respects the entry-point bound of at most 3 paths. -/
theorem valid_from_labels_nodup (fs : FileSystem) :
    ∀ (ps : List String) (i : Nat),
      i + ps.length ≤ 3 →
      ((valid_from fs i ps).map (fun kv => kv.1)).Nodup := by
  intro ps
  induction ps with
  | nil => intro i _; simp [valid_from]
  | cons q rest ih =>
      intro i hle
      rw [valid_from]
      have hlen : i + 1 + rest.length ≤ 3 := by
        simp only [List.length_cons] at hle; omega
      by_cases hv : validate_image_path fs q
      · rw [if_pos hv]
        rw [List.map_cons, List.nodup_cons]
        refine ⟨?_, ih (i + 1) hlen⟩
        intro hmem
        obtain ⟨kv, hkv, hfst⟩ := List.mem_map.1 hmem
        obtain ⟨l2, p2⟩ := kv
        obtain ⟨j, hj, hl, _, _⟩ := valid_from_mem fs rest (i + 1) l2 p2 hkv
        dsimp only at hfst
        rw [hfst] at hl
        exact slot_label_ne_of_lt3 i (by omega) (i + 1 + j) (by omega) (by omega) hl
      · rw [if_neg hv]
        exact ih (i + 1) hlen

/-- If every path of the batch fails validation, the validation loop
produces no pairs at all. -/
theorem valid_from_nil_of_all_invalid (fs : FileSystem) :
    ∀ (ps : List String) (i : Nat),
      (∀ p ∈ ps, validate_image_path fs p = false) →
      valid_from fs i ps = [] := by
  intro ps
  induction ps with
  | nil => intro i _; rfl
  | cons q rest ih =>
      intro i hall
      rw [valid_from]
      rw [if_neg ?_]
      · exact ih (i + 1) (fun p hp => hall p (List.mem_cons_of_mem q hp))
      · rw [hall q (List.mem_cons_self q rest)]
        exact Bool.false_ne_true

/-! ### Concrete environments used by witnesses and counterexamples -/

/-- Filesystem where every path is a regular file guessed as `image/png`. -/
def echoFs : FileSystem :=
  ⟨fun _ => true, fun _ => some "image/png"⟩

/-- Environment where preprocessing and encoding always succeed and the OCR
vendor answers 200 with a single field whose text is the queried path. -/
def echoEnv : OcrEnv :=
  ⟨echoFs, fun _ => true, fun _ => true, fun p => .ok 200 ⟨[⟨[⟨p⟩]⟩]⟩⟩

/-- Filesystem where only the path `a` is a regular file. -/
def mixedFs : FileSystem :=
  ⟨fun p => p == "a", fun _ => some "image/png"⟩

/-- Environment over `mixedFs` with an always-successful OCR vendor. -/
def mixedEnv : OcrEnv :=
  ⟨mixedFs, fun _ => true, fun _ => true, fun p => .ok 200 ⟨[⟨[⟨p⟩]⟩]⟩⟩

/-- Filesystem whose MIME guess is always `image/jpg`. -/
def jpgFs : FileSystem :=
  ⟨fun _ => true, fun _ => some "image/jpg"⟩

/-- Filesystem with no regular files at all. -/
def invalidFs : FileSystem :=
  ⟨fun _ => false, fun _ => none⟩

/-- Environment over `invalidFs`. -/
def invalidEnv : OcrEnv :=
  ⟨invalidFs, fun _ => true, fun _ => true, fun _ => .timeout⟩

/-- Environment where every OCR network call times out. -/
def timeoutEnv : OcrEnv :=
  ⟨echoFs, fun _ => true, fun _ => true, fun _ => .timeout⟩

/-- Environment whose OCR vendor answers 200 with two image entries holding
two fields and one field respectively. -/
def fieldsEnv : OcrEnv :=
  ⟨echoFs, fun _ => true, fun _ => true,
    fun _ => .ok 200 ⟨[⟨[⟨"APPLE"⟩, ⟨"1"⟩]⟩, ⟨[⟨"2000"⟩]⟩]⟩⟩

/-! ### Claim theorems -/

/-- Claim C1, amended: the combined text handed to summarization is the
newline join of the per-slot OCR texts in the order the concurrent tasks
complete (the insertion order of the `extracted_texts` dict), with no slot
filtered out — not in slot order. It coincides with the slot-order join
only when tasks happen to complete in slot order. -/
theorem combined_text_is_completion_order_join (env : OcrEnv)
    (order : List (String × String))
    (h : (order.map (fun info => info.1)).Nodup) :
    combined_text env order
        = String.intercalate "\n" (order.map (fun info => (perform_ocr env info).2))
    ∧ (collect_results env order).length = order.length := by
  constructor
  · rw [combined_text, collect_results_eq_map env order h, List.map_map]
    rfl
  · rw [collect_results_eq_map env order h, List.length_map]

/-- Witness for the amended Claim C1 at a concrete two-slot run. -/
theorem combined_text_is_completion_order_join_witness :
    (([("Receipt2", "b"), ("Receipt1", "a")] : List (String × String)).map
        (fun info => info.1)).Nodup
    ∧ (combined_text echoEnv [("Receipt2", "b"), ("Receipt1", "a")]
          = String.intercalate "\n"
              (([("Receipt2", "b"), ("Receipt1", "a")] : List (String × String)).map
                (fun info => (perform_ocr echoEnv info).2))
        ∧ (collect_results echoEnv [("Receipt2", "b"), ("Receipt1", "a")]).length
            = ([("Receipt2", "b"), ("Receipt1", "a")] : List (String × String)).length) :=
  ⟨by decide, combined_text_is_completion_order_join echoEnv _ (by decide)⟩

/-- Counterexample to Claim C1 as stated: for the batch `["a", "b"]` whose
two OCR tasks both succeed, the completion order `Receipt2, Receipt1` is a
permutation of the dispatched pairs, yet the combined text differs from the
slot-order newline join. -/
theorem combined_text_not_slot_order :
    ([("Receipt2", "b"), ("Receipt1", "a")] : List (String × String)).Perm
        (valid_image_paths echoEnv.fs ["a", "b"])
    ∧ combined_text echoEnv [("Receipt2", "b"), ("Receipt1", "a")]
        ≠ String.intercalate "\n"
            ((valid_image_paths echoEnv.fs ["a", "b"]).map
              (fun info => (perform_ocr echoEnv info).2)) := by
  decide

/-- Claim C2 (confirmed): for 1 ≤ N ≤ 3 submitted `(slot label, image)`
pairs with distinct labels, the collected mapping has exactly one entry per
submitted slot label — N entries — whatever the outcome of each task is.
`perform_ocr` is total (every exception is caught in the source), so no
task outcome can remove a key or propagate an exception. -/
theorem dispatcher_one_entry_per_slot (env : OcrEnv) (order : List (String × String))
    (hlo : 1 ≤ order.length) (hhi : order.length ≤ 3)
    (h : (order.map (fun info => info.1)).Nodup) :
    (collect_results env order).map (fun info => info.1)
        = order.map (fun info => info.1)
    ∧ (collect_results env order).length = order.length := by
  constructor
  · rw [collect_results_eq_map env order h, List.map_map]
    refine List.map_congr_left ?_
    intro info _
    exact perform_ocr_fst env info
  · rw [collect_results_eq_map env order h, List.length_map]

/-- Witness for Claim C2: a two-slot batch where one task succeeds and the
other times out still yields both keys. -/
theorem dispatcher_one_entry_per_slot_witness :
    (1 ≤ ([("Receipt1", "a"), ("Receipt2", "b")] : List (String × String)).length
        ∧ ([("Receipt1", "a"), ("Receipt2", "b")] : List (String × String)).length ≤ 3
        ∧ (([("Receipt1", "a"), ("Receipt2", "b")] : List (String × String)).map
            (fun info => info.1)).Nodup)
    ∧ (collect_results timeoutEnv [("Receipt1", "a"), ("Receipt2", "b")]).map
          (fun info => info.1)
        = ([("Receipt1", "a"), ("Receipt2", "b")] : List (String × String)).map
            (fun info => info.1) :=
  ⟨⟨by decide, by decide, by decide⟩,
    (dispatcher_one_entry_per_slot timeoutEnv _ (by decide) (by decide) (by decide)).1⟩

/-- Claim C3, amended: a path failing validation is skipped before
dispatch, so its slot label has no entry at all in the result mapping of the run
(rather than an empty-string entry); no OCR network call is attempted for
it; and if the OCR client itself is invoked on such a path it returns the
empty string without reaching the network. -/
theorem invalid_path_never_dispatched (env : OcrEnv) (paths : List String)
    (order : List (String × String)) (i : Nat) (hi : i < paths.length)
    (hlen : paths.length ≤ 3)
    (hinv : validate_image_path env.fs (paths.get ⟨i, hi⟩) = false)
    (hperm : order.Perm (valid_image_paths env.fs paths)) :
    (∀ kv ∈ collect_results env order, kv.1 ≠ slot_label i)
    ∧ (paths.get ⟨i, hi⟩) ∉ run_ocr_calls env order
    ∧ (∀ t, perform_ocr env (t, paths.get ⟨i, hi⟩) = (t, "")) := by
  have hnodupvalid : ((valid_image_paths env.fs paths).map (fun kv => kv.1)).Nodup :=
    valid_from_labels_nodup env.fs paths 0 (by omega)
  have hnodup : (order.map (fun info => info.1)).Nodup :=
    (List.Perm.nodup_iff (hperm.map (fun info => info.1))).2 hnodupvalid
  refine ⟨?_, ?_, ?_⟩
  · intro kv hkv hcontra
    rw [collect_results_eq_map env order hnodup] at hkv
    obtain ⟨info, hinfo, hkveq⟩ := List.mem_map.1 hkv
    have hmemvalid : info ∈ valid_image_paths env.fs paths := hperm.mem_iff.1 hinfo
    obtain ⟨l2, p2⟩ := info
    obtain ⟨j, hj, hl, hp, hval⟩ := valid_from_mem env.fs paths 0 l2 p2 hmemvalid
    simp only [Nat.zero_add] at hl
    have hkv1 : kv.1 = l2 := by
      rw [← hkveq]; exact perform_ocr_fst env (l2, p2)
    have hlabels : slot_label j = slot_label i := by
      rw [← hl, ← hkv1]; exact hcontra
    by_cases heq : j = i
    · subst heq
      rw [hp] at hval
      have : paths.get ⟨j, hj⟩ = paths.get ⟨j, hi⟩ := rfl
      rw [this, hinv] at hval
      exact Bool.false_ne_true hval
    · exact slot_label_ne_of_lt3 j (by omega) i (by omega) heq hlabels
  · intro hmem
    rw [run_ocr_calls] at hmem
    obtain ⟨info, hinfo, hpeq⟩ := List.mem_map.1 hmem
    have hfilter : ocr_net_attempted env info.2 = true := by
      simpa using List.of_mem_filter hinfo
    rw [hpeq, ocr_net_attempted] at hfilter
    rw [hinv] at hfilter
    simp at hfilter
  · intro t
    simp only [List.get_eq_getElem] at hinv
    simp [perform_ocr, hinv]

/-- Witness for the amended Claim C3: in a run over `["x", "a"]` where `x`
is not a file, `x` triggers no OCR network call and a direct OCR-client
call on it returns the empty string. -/
theorem invalid_path_never_dispatched_witness :
    ((0 : Nat) < (["x", "a"] : List String).length
        ∧ (["x", "a"] : List String).length ≤ 3
        ∧ validate_image_path mixedEnv.fs "x" = false
        ∧ ([("Receipt2", "a")] : List (String × String)).Perm
            (valid_image_paths mixedEnv.fs ["x", "a"]))
    ∧ "x" ∉ run_ocr_calls mixedEnv [("Receipt2", "a")]
    ∧ perform_ocr mixedEnv ("Receipt1", "x") = ("Receipt1", "") :=
  ⟨⟨by decide, by decide, by decide, by decide⟩,
    (invalid_path_never_dispatched mixedEnv ["x", "a"] [("Receipt2", "a")] 0
        (by decide) (by decide) (by decide) (by decide)).2.1,
    (invalid_path_never_dispatched mixedEnv ["x", "a"] [("Receipt2", "a")] 0
        (by decide) (by decide) (by decide) (by decide)).2.2 "Receipt1"⟩

/-- Counterexample to Claim C3 as stated: in the run over `["x", "a"]`
where `x` fails validation, the result mapping has no `Receipt1` entry at
all — its lookup is `none`, not the empty string. -/
theorem invalid_slot_absent_not_empty :
    validate_image_path mixedEnv.fs "x" = false
    ∧ valid_image_paths mixedEnv.fs ["x", "a"] = [("Receipt2", "a")]
    ∧ List.lookup "Receipt1" (collect_results mixedEnv [("Receipt2", "a")])
        ≠ some "" := by
  decide

/-- Claim C4, amended: the validator accepts a path exactly when it is a
regular file whose guessed MIME type is one of `image/jpeg`, `image/png`
or `image/jpg` — the source list also contains `image/jpg`, so the
accepted set is not exactly `{image/jpeg, image/png}`. An unguessable MIME
type (`None`) is rejected. -/
theorem validate_image_path_iff (fs : FileSystem) (p : String) :
    validate_image_path fs p = true ↔
      fs.isFile p = true
        ∧ ∃ m, fs.guessType p = some m
            ∧ (m = "image/jpeg" ∨ m = "image/png" ∨ m = "image/jpg") := by
  unfold validate_image_path
  cases hf : fs.isFile p
  · simp [hf]
  · cases hg : fs.guessType p
    · simp [hg]
    · simp [List.contains_eq_any_beq, beq_iff_eq]

/-- Counterexample to Claim C4 as stated: a file whose guessed MIME type is
`image/jpg` — outside `{image/jpeg, image/png}` — is accepted by the
validator. -/
theorem validate_accepts_image_jpg :
    validate_image_path jpgFs "x" = true
    ∧ jpgFs.guessType "x" = some "image/jpg"
    ∧ "image/jpg" ∉ (["image/jpeg", "image/png"] : List String) := by
  decide

/-- Claim C5 (confirmed): on a timeout, a request exception, any other
exception, or a non-200 status, the OCR client returns the pair
`(slot label, "")`; all these paths are caught inside `perform_ocr`, which
is embedded as a total function, so nothing propagates to the caller. -/
theorem perform_ocr_failure_returns_empty (env : OcrEnv) (t p : String)
    (h : env.net p = .timeout ∨ env.net p = .requestError ∨ env.net p = .exception
      ∨ ∃ s b, env.net p = .ok s b ∧ s ≠ 200) :
    perform_ocr env (t, p) = (t, "") := by
  unfold perform_ocr
  dsimp only
  split_ifs <;> try rfl
  rcases h with hn | hn | hn | ⟨s, b, hn, hs⟩ <;> rw [hn] <;> try rfl
  dsimp only
  rw [if_neg hs]

/-- Witness for Claim C5 at a concrete timed-out request. -/
theorem perform_ocr_failure_returns_empty_witness :
    (timeoutEnv.net "a" = .timeout
        ∨ timeoutEnv.net "a" = .requestError
        ∨ timeoutEnv.net "a" = .exception
        ∨ ∃ s b, timeoutEnv.net "a" = .ok s b ∧ s ≠ 200)
    ∧ perform_ocr timeoutEnv ("Receipt1", "a") = ("Receipt1", "") :=
  ⟨Or.inl rfl, perform_ocr_failure_returns_empty timeoutEnv "Receipt1" "a" (Or.inl rfl)⟩

/-- If every image entry of a response has no fields, the flattened field
list is empty. -/
theorem flatMap_fields_nil (l : List OcrImage)
    (hall : ∀ image ∈ l, image.fields = []) :
    l.flatMap (fun image => image.fields.map (fun field => field.inferText)) = [] := by
  induction l with
  | nil => rfl
  | cons img rest ih =>
      rw [List.flatMap_cons, hall img (List.mem_cons_self img rest)]
      simpa using ih (fun image hm => hall image (List.mem_cons_of_mem img hm))

/-- Claim C6 (confirmed): on a 200 response the extracted text is the
space-joined concatenation of the `inferText` of every field, in response order,
flattened across all image entries; with zero images, or zero fields in
every image, the result is the empty string. -/
theorem perform_ocr_success_joins_fields (env : OcrEnv) (t p : String) (body : OcrBody)
    (hv : validate_image_path env.fs p = true)
    (hp : env.preprocessOk p = true)
    (he : env.encodeOk p = true)
    (hn : env.net p = .ok 200 body) :
    perform_ocr env (t, p)
        = (t, String.intercalate " "
            (body.images.flatMap (fun image => image.fields.map (fun field => field.inferText))))
    ∧ (body.images = [] → perform_ocr env (t, p) = (t, ""))
    ∧ ((∀ image ∈ body.images, image.fields = []) → perform_ocr env (t, p) = (t, "")) := by
  have hmain : perform_ocr env (t, p) = (t, ocr_text_results body) := by
    unfold perform_ocr
    simp [hv, hp, he, hn]
  refine ⟨hmain, ?_, ?_⟩
  · intro hempty
    rw [hmain]
    rw [show ocr_text_results body = "" by rw [ocr_text_results, hempty]; rfl]
  · intro hall
    rw [hmain]
    rw [show ocr_text_results body = "" by
      rw [ocr_text_results, flatMap_fields_nil body.images hall]; rfl]

/-- Witness for Claim C6 at a concrete 200 response with two fields across
two image entries. -/
theorem perform_ocr_success_joins_fields_witness :
    (validate_image_path fieldsEnv.fs "a" = true
        ∧ fieldsEnv.preprocessOk "a" = true
        ∧ fieldsEnv.encodeOk "a" = true
        ∧ fieldsEnv.net "a" = .ok 200 ⟨[⟨[⟨"APPLE"⟩, ⟨"1"⟩]⟩, ⟨[⟨"2000"⟩]⟩]⟩)
    ∧ perform_ocr fieldsEnv ("Receipt1", "a")
        = ("Receipt1", String.intercalate " "
            ((⟨[⟨[⟨"APPLE"⟩, ⟨"1"⟩]⟩, ⟨[⟨"2000"⟩]⟩]⟩ : OcrBody).images.flatMap
              (fun image => image.fields.map (fun field => field.inferText)))) :=
  ⟨⟨by decide, by decide, by decide, rfl⟩,
    (perform_ocr_success_joins_fields fieldsEnv "Receipt1" "a"
        ⟨[⟨[⟨"APPLE"⟩, ⟨"1"⟩]⟩, ⟨[⟨"2000"⟩]⟩]⟩
        (by decide) (by decide) (by decide) rfl).1⟩

/-- Claim C7 (confirmed): the report-path `analyze_expenses` makes up to 3
attempts with backoff 1 then 2 between attempts — failures on attempts 1
and 2 followed by success on attempt 3 return the attempt-3 analysis after
total inter-attempt delay 1 + 2 = 3 — while the interactive
`perform_summarization` wraps a single request and maps every failure
outcome to `none` with no retry and no delay. -/
theorem analyze_retries_summarization_does_not (attempts : Nat → AttemptOutcome)
    (analysis : String)
    (h0 : attempts 0 = .fail) (h1 : attempts 1 = .fail) (h2 : attempts 2 = .ok analysis) :
    analyze_expenses attempts 3 = ⟨some analysis, 3⟩
    ∧ (analyze_expenses attempts 3).totalDelay ≥ 1 + 2
    ∧ (∀ outcome : NetResult SumBody,
        (outcome = .timeout ∨ outcome = .requestError ∨ outcome = .exception
          ∨ ∃ s b, outcome = .ok s b ∧ s ≠ 200) →
        perform_summarization outcome = none) := by
  have hrun : analyze_expenses attempts 3 = ⟨some analysis, 3⟩ := by
    simp [analyze_expenses, analyze_go, h0, h1, h2]
  refine ⟨hrun, by rw [hrun], ?_⟩
  intro outcome hout
  rcases hout with ho | ho | ho | ⟨s, b, ho, hs⟩ <;> rw [ho]
  · rfl
  · rfl
  · rfl
  · simp [perform_summarization, hs]

/-- Witness for Claim C7 at a concrete attempt sequence failing twice then
succeeding. -/
theorem analyze_retries_summarization_does_not_witness :
    ((fun n => if n < 2 then AttemptOutcome.fail else AttemptOutcome.ok "T") 0
          = AttemptOutcome.fail
        ∧ (fun n => if n < 2 then AttemptOutcome.fail else AttemptOutcome.ok "T") 1
          = AttemptOutcome.fail
        ∧ (fun n => if n < 2 then AttemptOutcome.fail else AttemptOutcome.ok "T") 2
          = AttemptOutcome.ok "T")
    ∧ analyze_expenses (fun n => if n < 2 then AttemptOutcome.fail else AttemptOutcome.ok "T") 3
        = ⟨some "T", 3⟩
    ∧ perform_summarization (NetResult.timeout) = none :=
  ⟨⟨by decide, by decide, by decide⟩,
    (analyze_retries_summarization_does_not
        (fun n => if n < 2 then AttemptOutcome.fail else AttemptOutcome.ok "T") "T"
        (by decide) (by decide) (by decide)).1,
    (analyze_retries_summarization_does_not
        (fun n => if n < 2 then AttemptOutcome.fail else AttemptOutcome.ok "T") "T"
        (by decide) (by decide) (by decide)).2.2 NetResult.timeout (Or.inl rfl)⟩

/-- Claim C8, amended: when every supplied image fails validation the
orchestrator reports the no-valid-images error (not the empty-OCR-result
error, which is only reached later) and exits with status 1, without any
OCR network call and without calling summarization. -/
theorem all_invalid_reports_no_valid_images (env : OcrEnv)
    (sumNet : String → NetResult SumBody) (paths : List String)
    (order : List (String × String)) (hne : paths ≠ [])
    (hall : ∀ p ∈ paths, validate_image_path env.fs p = false) :
    main_run env sumNet paths order
        = ⟨.noValidImages, [], [], false⟩
    ∧ exit_code (main_run env sumNet paths order).outcome = 1 := by
  have hvalid : valid_image_paths env.fs paths = [] :=
    valid_from_nil_of_all_invalid env.fs paths 0 hall
  have h1 : main_run env sumNet paths order = ⟨.noValidImages, [], [], false⟩ := by
    rw [main_run, hvalid]
    rfl
  exact ⟨h1, by rw [h1]; rfl⟩

/-- Witness for the amended Claim C8 at a concrete all-invalid batch. -/
theorem all_invalid_reports_no_valid_images_witness :
    ((["x"] : List String) ≠ []
        ∧ validate_image_path invalidEnv.fs "x" = false)
    ∧ main_run invalidEnv (fun _ => NetResult.timeout) ["x"] []
        = ⟨.noValidImages, [], [], false⟩ :=
  ⟨⟨by decide, by decide⟩,
    (all_invalid_reports_no_valid_images invalidEnv (fun _ => NetResult.timeout) ["x"] []
        (by decide) (by
          intro p hp
          rw [List.mem_singleton] at hp
          rw [hp]
          decide)).1⟩

/-- Counterexample to Claim C8 as stated: for the all-invalid batch `["x"]`
the orchestrator outcome is the no-valid-images error, which is a
different terminating error than the empty-OCR-result error the claim
names (the run never reaches the combined-text check). -/
theorem all_invalid_error_is_not_empty_ocr :
    (main_run invalidEnv (fun _ => NetResult.timeout) ["x"] []).outcome
        = RunOutcome.noValidImages
    ∧ (main_run invalidEnv (fun _ => NetResult.timeout) ["x"] []).outcome
        ≠ RunOutcome.emptyOcr := by
  decide

/-- Claim C9 (confirmed): a 200 summarization response whose message
content is whitespace-only is trimmed to the empty string, and the
orchestrator treats that falsy value exactly like a summarization failure:
outcome `summarizationFailed`, exit status 1, never a printed summary. -/
theorem whitespace_summary_treated_as_failure (env : OcrEnv)
    (sumNet : String → NetResult SumBody) (paths : List String)
    (order : List (String × String)) (c : String)
    (hvalid : (valid_image_paths env.fs paths).isEmpty = false)
    (hcombined :
      ¬ pyStrip (String.intercalate "\n"
          ((collect_results env order).map (fun kv => kv.2))) = "")
    (hnet : sumNet (receipt_prompt
        (String.intercalate "\n" ((collect_results env order).map (fun kv => kv.2))))
        = .ok 200 ⟨[⟨⟨c⟩⟩]⟩)
    (hc : pyStrip c = "") :
    perform_summarization (.ok 200 ⟨[⟨⟨c⟩⟩]⟩) = some ""
    ∧ (main_run env sumNet paths order).outcome = .summarizationFailed
    ∧ exit_code (main_run env sumNet paths order).outcome = 1 := by
  have hsum : perform_summarization (.ok 200 ⟨[⟨⟨c⟩⟩]⟩) = some "" := by
    simp [perform_summarization, hc]
  have houtcome : (main_run env sumNet paths order).outcome = .summarizationFailed := by
    rw [main_run]
    simp only [hvalid, Bool.false_eq_true, if_false, hcombined, hnet, hsum]
    simp
  exact ⟨hsum, houtcome, by rw [houtcome]; rfl⟩

/-- Witness for Claim C9: a one-slot run whose OCR text is `a` and whose
summarization returns a whitespace-only content. -/
theorem whitespace_summary_treated_as_failure_witness :
    ((valid_image_paths echoEnv.fs ["a"]).isEmpty = false
        ∧ ¬ pyStrip (String.intercalate "\n"
              ((collect_results echoEnv [("Receipt1", "a")]).map (fun kv => kv.2))) = ""
        ∧ pyStrip "  " = "")
    ∧ (main_run echoEnv (fun _ => .ok 200 ⟨[⟨⟨"  "⟩⟩]⟩) ["a"]
          [("Receipt1", "a")]).outcome = .summarizationFailed :=
  ⟨⟨by decide, by decide, by decide⟩,
    (whitespace_summary_treated_as_failure echoEnv (fun _ => .ok 200 ⟨[⟨⟨"  "⟩⟩]⟩)
        ["a"] [("Receipt1", "a")] "  "
        (by decide) (by decide) rfl (by decide)).2.1⟩

/-- Claim C10 (confirmed): slot labels come from the position in the
original argument list before validation filtering — position `i` gets
`Receipt{i+1}`, valid survivors keep their positional labels, and the keys
of a partially-valid batch need not be the contiguous `Receipt1..ReceiptK`:
for `["x", "a"]` with `x` invalid the only key is `Receipt2`. -/
theorem slot_labels_positional (fs : FileSystem) (paths : List String) :
    (∀ i, ∀ h : i < paths.length,
        validate_image_path fs (paths.get ⟨i, h⟩) = true →
        (slot_label i, paths.get ⟨i, h⟩) ∈ valid_image_paths fs paths)
    ∧ (∀ l p, (l, p) ∈ valid_image_paths fs paths →
        ∃ j, ∃ h : j < paths.length, l = slot_label j ∧ p = paths.get ⟨j, h⟩
          ∧ validate_image_path fs p = true)
    ∧ (valid_image_paths mixedFs ["x", "a"]).map (fun kv => kv.1) = ["Receipt2"] := by
  refine ⟨?_, ?_, by decide⟩
  · intro i h hval
    have := valid_from_mem_of_valid fs paths 0 i h hval
    simpa [valid_image_paths] using this
  · intro l p hmem
    obtain ⟨j, hj, hl, hp, hval⟩ := valid_from_mem fs paths 0 l p hmem
    exact ⟨j, hj, by simpa using hl, hp, hval⟩

/-- Witness for Claim C10: in the batch `["x", "a"]` the surviving second
path keeps its positional label `Receipt2`. -/
theorem slot_labels_positional_witness :
    validate_image_path mixedFs "a" = true
    ∧ ("Receipt2", "a") ∈ valid_image_paths mixedFs ["x", "a"] :=
  ⟨by decide,
    (slot_labels_positional mixedFs ["x", "a"]).1 1 (by decide) (by decide)⟩
